import Mathlib

/-!
Shallow embedding of the BlueOS-Extensions-Repository consolidation pipeline
(`blueos_repository`), covering the components the verified claims are about:

* `docker/image_ref.py`   — `DockerImageRef.parse`
* `docker/models/*.py`    — manifest / blob / tag / auth-token data model
* `docker/registry.py`    — typed decoding in `DockerRegistry.get_manifest`
* `extension/models.py`   — `ExtensionType`, `ExtensionVersion.validate_filter_tags`
* `extension/extension.py`— embedded-digest resolution, per-tag processing
* `utils.py`              — `valid_semver`

Python strings are modelled as Lean `String`s (operating on `String.data`
where character-level reasoning is needed); Python dictionaries as
association lists with first-match lookup; `async` network calls as explicit
oracle functions collected in a `ResolveEnv`, with every performed call
recorded in an explicit trace so that "performs no network call" claims are
statable; Python exceptions as `Except` values.
-/

namespace Blueos

/-- Decidable equality for `Except` outcomes (used to state and decide
facts about modelled exception results). -/
instance excDecEq {ε α : Type} [DecidableEq ε] [DecidableEq α] :
    DecidableEq (Except ε α) := fun a b =>
  match a, b with
  | .ok x, .ok y => decidable_of_iff (x = y) (by simp)
  | .error x, .error y => decidable_of_iff (x = y) (by simp)
  | .ok _, .error _ => isFalse (by simp)
  | .error _, .ok _ => isFalse (by simp)

/-! ## Python string primitives -/

/-- Embedding of `s.split(sep)[0]` for a one-character separator: the prefix
of the string up to (excluding) the first occurrence of `sep`; the whole
string when `sep` does not occur. -/
def pySplitHead (s : String) (sep : Char) : String :=
  ⟨s.data.takeWhile (fun c => c ≠ sep)⟩

/-- Embedding of Python `str.split(sep)` for a one-character separator,
at the character-list level.  Always returns a non-empty list of parts;
`split` of the empty string is `[[]]`, matching Python `"".split("/") == [""]`. -/
def pySplitChars (sep : Char) : List Char → List (List Char)
  | [] => [[]]
  | c :: rest =>
    let r := pySplitChars sep rest
    if c = sep then
      [] :: r
    else
      match r with
      | h :: t => (c :: h) :: t
      | [] => [[c]]

/-- Embedding of Python `str.split(sep)` returning strings. -/
def pySplit (s : String) (sep : Char) : List String :=
  (pySplitChars sep s.data).map (fun l => ⟨l⟩)

/-- Embedding of Python `str.replace(pattern, replacement)` (all occurrences,
scanned left to right, non-overlapping).  Implemented with a fuel argument
(the input length) so that it is structurally recursive; when the pattern is
non-empty every step consumes at least one character, so the fuel is never
exhausted. -/
def pyReplaceAux (pat rep : List Char) : Nat → List Char → List Char
  | _, [] => []
  | 0, l => l
  | Nat.succ fuel, c :: rest =>
    if pat ≠ [] ∧ pat.isPrefixOf (c :: rest) then
      rep ++ pyReplaceAux pat rep fuel ((c :: rest).drop pat.length)
    else
      c :: pyReplaceAux pat rep fuel rest

/-- Embedding of Python `str.replace` on strings (empty pattern behaves as
the identity here; the source only replaces non-empty literals). -/
def pyReplace (s pat rep : String) : String :=
  ⟨pyReplaceAux pat.data rep.data s.data.length s.data⟩

/-- Embedding of Python `str.lower()` (ASCII case folding, which is what the
label strings in this repository use). -/
def pyLower (s : String) : String :=
  ⟨s.data.map Char.toLower⟩

/-- Embedding of Python `str.isalnum()`: non-empty and every character
alphanumeric. -/
def pyIsAlnum (s : String) : Bool :=
  !s.data.isEmpty && s.data.all Char.isAlphanum

/-- Embedding of Python `c in s` for a one-character needle. -/
def pyContainsChar (s : String) (c : Char) : Bool :=
  s.data.contains c

/-- Embedding of Python `needle in haystack` for strings (substring test). -/
def pyInStr (needle hay : String) : Bool :=
  go needle.data hay.data
where
  /-- Check whether `needle` occurs as a contiguous sublist of `hay`. -/
  go (needle : List Char) : List Char → Bool
    | [] => needle.isEmpty
    | c :: rest => needle.isPrefixOf (c :: rest) || go needle rest

/-- Embedding of `url.rsplit("/", 1)[0]`: everything before the last slash,
or the whole string when there is no slash. -/
def pyRsplitSlashHead (s : String) : String :=
  if s.data.contains '/' then
    ⟨(((s.data.reverse.dropWhile (fun c => c ≠ '/')).drop 1)).reverse⟩
  else
    s

/-- Embedding of Python dictionary `d.get(key, default)` for string-valued
labels, with the dictionary modelled as an association list. -/
def lget (labels : List (String × String)) (key default : String) : String :=
  (labels.lookup key).getD default

/-- Embedding of Python dictionary `d.get(key)` returning `None` when the
key is absent. -/
def lgetOpt (labels : List (String × String)) (key : String) : Option String :=
  labels.lookup key

/-- Truthiness of a Python `Optional[str]`: `None` and the empty string are
falsy, everything else truthy. -/
def pyTruthyStr : Option String → Bool
  | none => false
  | some s => s ≠ ""

/-- Embedding of `x if x else None` for an `Optional[str]` value. -/
def pyStrOrNone (o : Option String) : Option String :=
  if pyTruthyStr o then o else none

/-- Embedding of `x or default` for an `Optional[str]` value. -/
def pyStrOrDefault (o : Option String) (default : String) : String :=
  match o with
  | some s => if s = "" then default else s
  | none => default

/-! ## `docker/image_ref.py` — `DockerImageRef` -/

/-- Parsed Docker image reference (`DockerImageRef` dataclass). -/
structure DockerImageRef where
  registry : String
  repository : String
deriving DecidableEq, Repr

/-- Embedding of `DockerImageRef.parse`.  The source computes
`name = docker.split("@")[0].split(":")[0]`, i.e. it truncates at the first
`@` and then at the first `:`; then it splits on `/` and treats the first
segment as a registry host when there are at least three segments and the
first segment contains a dot or a colon or equals `localhost`. -/
def DockerImageRef.parse (docker : String) : DockerImageRef :=
  let name := pySplitHead (pySplitHead docker '@') ':'
  let parts := pySplit name '/'
  if 3 ≤ parts.length ∧
      (pyContainsChar (parts.headD "") '.' ∨ pyContainsChar (parts.headD "") ':' ∨
        parts.headD "" = "localhost") then
    { registry := parts.headD "", repository := ⟨List.intercalate ['/'] ((parts.map String.data).tail)⟩ }
  else
    { registry := "docker.io", repository := name }

/-- Embedding of the `is_dockerhub` property. -/
def DockerImageRef.is_dockerhub (ref : DockerImageRef) : Bool :=
  ref.registry == "docker.io" || ref.registry == "registry-1.docker.io" ||
    ref.registry == "index.docker.io"

/-! ## `docker/models/manifest.py` — manifest data model -/

/-- Platform descriptor of a manifest-list entry (`ManifestPlatform`). -/
structure ManifestPlatform where
  architecture : String
  os : String
  variant : Option String := none
  features : Option (List String) := none
deriving DecidableEq, Repr

/-- One entry of a manifest list (`Manifest` dataclass). -/
structure ManifestEntry where
  mediaType : String
  size : Nat
  digest : String
  platform : ManifestPlatform
deriving DecidableEq, Repr

/-- Fat manifest pointing at per-platform manifests (`ManifestList`). -/
structure ManifestList where
  schemaVersion : Nat
  mediaType : String
  manifests : List ManifestEntry
deriving DecidableEq, Repr

/-- Reference to the configuration object (`ConfigReference`). -/
structure ConfigReference where
  mediaType : String
  size : Nat
  digest : String
deriving DecidableEq, Repr

/-- One layer of an image manifest (`ManifestLayer`). -/
structure ManifestLayer where
  mediaType : String
  size : Nat
  digest : String
  urls : Option (List String) := none
deriving DecidableEq, Repr

/-- Single-image manifest (`ImageManifest`). -/
structure ImageManifest where
  schemaVersion : Nat
  mediaType : String
  config : ConfigReference
  layers : List ManifestLayer
deriving DecidableEq, Repr

/-- The union type `ManifestList | ImageManifest` from `ManifestFetch`. -/
inductive ManifestVariant where
  | image (m : ImageManifest)
  | list (l : ManifestList)
deriving DecidableEq, Repr

/-- Result of a manifest fetch (`ManifestFetch`). -/
structure ManifestFetch where
  manifest : ManifestVariant
deriving DecidableEq, Repr

/-! ## `docker/registry.py` — typed decoding in `get_manifest`

The network part of `get_manifest` is an oracle; what is embedded here is the
decoding step applied to the raw JSON body: keying on the presence of a
`config` field, filtering manifest-list entries that lack a `platform`
field, and the `fromdict` decodes (which fail when a required field is
absent). -/

/-- Raw manifest-list entry as present in the JSON response, before typed
decoding: the `platform` field may be absent (attestation manifests). -/
structure RawManifestEntry where
  mediaType : String
  size : Nat
  digest : String
  platform : Option ManifestPlatform := none
deriving DecidableEq, Repr

/-- Raw manifest JSON body: `config`, `layers` and `manifests` may each be
absent; their presence decides which typed decode is attempted. -/
structure RawManifestDoc where
  schemaVersion : Nat
  mediaType : String
  config : Option ConfigReference := none
  layers : Option (List ManifestLayer) := none
  manifests : Option (List RawManifestEntry) := none
deriving DecidableEq, Repr

/-- Typed decode of one raw entry (`fromdict` on the `Manifest` dataclass):
fails exactly when the required `platform` field is absent. -/
def decodeRawEntry (m : RawManifestEntry) : Option ManifestEntry :=
  m.platform.map (fun p => { mediaType := m.mediaType, size := m.size, digest := m.digest, platform := p })

/-- Decode a list of raw entries, failing if any single entry fails
(the behaviour of `fromdict` on the `manifests` field). -/
def decodeRawEntries : List RawManifestEntry → Option (List ManifestEntry)
  | [] => some []
  | m :: rest =>
    match decodeRawEntry m, decodeRawEntries rest with
    | some e, some es => some (e :: es)
    | _, _ => none

/-- Decoding step of `DockerRegistry.get_manifest`: if the body has a
`config` key decode it as an `ImageManifest`; otherwise, if it has a
`manifests` key, drop the entries lacking a `platform` field and decode the
rest as a `ManifestList`; `none` models a raised decode error. -/
def getManifestDecode (raw : RawManifestDoc) : Option ManifestFetch :=
  match raw.config with
  | some cfg =>
    (raw.layers).map (fun ls =>
      { manifest := .image { schemaVersion := raw.schemaVersion, mediaType := raw.mediaType, config := cfg, layers := ls } })
  | none =>
    match raw.manifests with
    | some entries =>
      let filtered := entries.filter (fun m => m.platform.isSome)
      (decodeRawEntries filtered).map (fun ms =>
        { manifest := .list { schemaVersion := raw.schemaVersion, mediaType := raw.mediaType, manifests := ms } })
    | none => none

/-! ## `docker/models/blob.py` — config blob -/

/-- Blob configuration (`BlobConfig`): environment and labels.  The label
dictionary is modelled as an association list with first-match lookup. -/
structure BlobConfig where
  Env : List String
  Labels : List (String × String)
deriving DecidableEq, Repr

/-- Config blob of an image (`Blob`). -/
structure Blob where
  config : BlobConfig
  architecture : Option String := none
  os : Option String := none
deriving DecidableEq, Repr

/-! ## `docker/models/tag.py` — Docker Hub tag metadata -/

/-- One layer of a Docker Hub image record (`Layer`). -/
structure HubLayer where
  digest : Option String
  size : Nat
  instruction : String
deriving DecidableEq, Repr

/-- Per-platform image record of a Docker Hub tag (`TagImage`). -/
structure TagImage where
  architecture : String
  features : String
  variant : String
  os : String
  os_features : String
  size : Nat
  status : String
  digest : Option String := none
  os_version : Option String := none
  layers : Option (List HubLayer) := none
  last_pulled : Option String := none
  last_pushed : Option String := none
deriving DecidableEq, Repr

/-- Docker Hub tag (`Tag`). -/
structure Tag where
  id : Nat
  images : List TagImage
  creator : Nat
  last_updater : Nat
  last_updater_username : String
  name : String
  repository : Nat
  full_size : Nat
  v2 : String
  last_updated : Option String := none
  tag_last_pulled : Option String := none
  tag_last_pushed : Option String := none
deriving DecidableEq, Repr

/-! ## `docker/models/auth.py` — `AuthToken`

Wall-clock instants are modelled as integer second counts;
`(now - issued_at).total_seconds()` becomes integer subtraction. -/

/-- Authorization token data (`AuthToken` dataclass, after `__post_init__`). -/
structure AuthToken where
  token : Option String := none
  access_token : Option String := none
  expires_in : Int := 60
  issued_at : Option Int := none
  refresh_token : Option String := none
deriving DecidableEq, Repr

/-- Embedding of `AuthToken` construction including `__post_init__`: requires
at least one of `token` / `access_token` to be truthy (a `ValueError` is
raised otherwise, modelled as `Except.error`), and defaults `issued_at` to
the construction instant `now` when the server did not supply one. -/
def AuthToken.create (token access_token : Option String) (expires_in : Int)
    (issued_at : Option Int) (refresh_token : Option String) (now : Int) :
    Except String AuthToken :=
  if !pyTruthyStr token && !pyTruthyStr access_token then
    .error "Either token or access_token must be specified."
  else
    .ok { token := token, access_token := access_token, expires_in := expires_in,
          issued_at := some (issued_at.getD now), refresh_token := refresh_token }

/-- Embedding of the `is_expired` property at observation instant `now`. -/
def AuthToken.is_expired (tok : AuthToken) (now : Int) : Bool :=
  match tok.issued_at with
  | none => true
  | some t => decide (now - t > tok.expires_in)

/-! ## `extension/models.py` — extension data model -/

/-- Extension type enumeration (`ExtensionType`, a `StrEnum`). -/
inductive ExtensionType where
  | DEVICE_INTEGRATION
  | EXAMPLE
  | THEME
  | OTHER
  | TOOL
deriving DecidableEq, Repr

/-- String value of each `ExtensionType` member. -/
def ExtensionType.value : ExtensionType → String
  | .DEVICE_INTEGRATION => "device-integration"
  | .EXAMPLE => "example"
  | .THEME => "theme"
  | .OTHER => "other"
  | .TOOL => "tool"

/-- Embedding of the `ExtensionType(value)` enum constructor call: returns
the member with that string value, or raises `ValueError` for any other
string. -/
def extensionTypeOfString (s : String) : Except String ExtensionType :=
  if s = "device-integration" then .ok .DEVICE_INTEGRATION
  else if s = "example" then .ok .EXAMPLE
  else if s = "theme" then .ok .THEME
  else if s = "other" then .ok .OTHER
  else if s = "tool" then .ok .TOOL
  else .error (s ++ " is not a valid ExtensionType")

/-- Platform of an image (`Platform` in `extension/models.py`). -/
structure ExtPlatform where
  architecture : String
  variant : Option String := none
  os : Option String := none
deriving DecidableEq, Repr

/-- Image available for an extension version (`Image` in
`extension/models.py`). -/
structure ExtImage where
  expanded_size : Nat
  platform : ExtPlatform
  digest : Option String := none
deriving DecidableEq, Repr

/-- Embedding of the static method `ExtensionVersion.validate_filter_tags`:
`[tag.lower() for tag in tags if tag.replace("-", "").isalnum()][:10]`. -/
def validate_filter_tags (tags : List String) : List String :=
  ((tags.filter (fun tag => pyIsAlnum (pyReplace tag "-" ""))).map pyLower).take 10

/-! ## `utils.py` — `valid_semver`

The `semver` library parses with the anchored SemVer 2.0 regular expression
`(0|[1-9]\d*)\.(0|[1-9]\d*)\.(0|[1-9]\d*)` followed by an optional
`-prerelease` (dot-separated identifiers, numeric ones without leading
zeros) and an optional `+build` (dot-separated non-empty alphanumeric/hyphen
identifiers). -/

/-- Parsed semantic version (`semver.VersionInfo`). -/
structure SemVer where
  major : Nat
  minor : Nat
  patch : Nat
  prerelease : List String := []
  build : List String := []
deriving DecidableEq, Repr

/-- Character class `[0-9a-zA-Z-]` of the SemVer grammar. -/
def isSemverIdentChar (c : Char) : Bool :=
  c.isAlphanum || c == '-'

/-- Matches `0|[1-9]\d*`: a numeric identifier without leading zeros. -/
def isNumericNoLeadingZeros (l : List Char) : Bool :=
  match l with
  | [] => false
  | c :: rest => (c == '0' && rest.isEmpty) || (c.isDigit && c != '0' && rest.all Char.isDigit)

/-- Matches one prerelease identifier:
`0|[1-9]\d*|\d*[a-zA-Z-][0-9a-zA-Z-]*`. -/
def isPrereleaseIdent (l : List Char) : Bool :=
  !l.isEmpty && l.all isSemverIdentChar &&
    (if l.all Char.isDigit then isNumericNoLeadingZeros l else true)

/-- Matches one build identifier: `[0-9a-zA-Z-]+`. -/
def isBuildIdent (l : List Char) : Bool :=
  !l.isEmpty && l.all isSemverIdentChar

/-- Splits at the first occurrence of `sep`, returning the part before it
and, when `sep` occurs, the part after it. -/
def splitAtFirst (sep : Char) (l : List Char) : List Char × Option (List Char) :=
  if l.contains sep then
    (l.takeWhile (fun c => c ≠ sep), some ((l.dropWhile (fun c => c ≠ sep)).drop 1))
  else
    (l, none)

/-- Numeric value of a digit string. -/
def digitsToNat (l : List Char) : Nat :=
  l.foldl (fun acc c => acc * 10 + (c.toNat - 48)) 0

/-- Embedding of `semver.VersionInfo.parse` (all three of
major/minor/patch required, the library default). -/
def semverParse (s : String) : Option SemVer :=
  let (beforeBuild, buildPart) := splitAtFirst '+' s.data
  let (core, prePart) := splitAtFirst '-' beforeBuild
  match pySplitChars '.' core with
  | [maj, min, pat] =>
    if isNumericNoLeadingZeros maj && isNumericNoLeadingZeros min &&
        isNumericNoLeadingZeros pat then
      let preOk := match prePart with
        | none => true
        | some pre => (pySplitChars '.' pre).all isPrereleaseIdent
      let buildOk := match buildPart with
        | none => true
        | some build => (pySplitChars '.' build).all isBuildIdent
      if preOk && buildOk then
        some { major := digitsToNat maj, minor := digitsToNat min, patch := digitsToNat pat,
               prerelease := match prePart with
                 | none => []
                 | some pre => (pySplitChars '.' pre).map (fun l => ⟨l⟩),
               build := match buildPart with
                 | none => []
                 | some build => (pySplitChars '.' build).map (fun l => ⟨l⟩) }
      else
        none
    else
      none
  | _ => none

/-- Embedding of `utils.valid_semver`: allow a leading `v`
(`string[1:]` when `string.startswith("v")`), then parse. -/
def valid_semver (s : String) : Option SemVer :=
  let s := match s.data with
    | 'v' :: rest => (⟨rest⟩ : String)
    | _ => s
  semverParse s

/-! ## `uuid.uuid5` — deterministic name-based UUID (version 5)

`Extension.__create_version` computes
`str(uuid.uuid5(uuid.NAMESPACE_DNS, f"{identifier}.{tag_name}"))`.
`uuid5` is the SHA-1-based name UUID of RFC 4122: SHA-1 of the namespace
bytes followed by the UTF-8 name, truncated to 16 bytes with the version
and variant bits forced.  The full construction is embedded here (bytes as
`Nat` values below 256, 32-bit words as `Nat` values reduced `% 2 ^ 32`). -/

/-- Left-rotation of a 32-bit word. -/
def rotl32 (x k : Nat) : Nat :=
  ((x <<< k) ||| (x >>> (32 - k))) % 4294967296

/-- Big-endian byte decomposition of `x` into `n` bytes. -/
def natToBytesBE (n x : Nat) : List Nat :=
  (List.range n).map (fun i => (x >>> ((n - 1 - i) * 8)) % 256)

/-- Split a list into chunks of `n` elements (`n ≥ 1`), by fuel. -/
def chunksAux (n : Nat) : Nat → List α → List (List α)
  | 0, _ => []
  | _, [] => []
  | Nat.succ fuel, l => l.take n :: chunksAux n fuel (l.drop n)

/-- Split a list into chunks of `n` elements (`n ≥ 1`). -/
def chunks (n : Nat) (l : List α) : List (List α) :=
  chunksAux n l.length l

/-- Big-endian 32-bit word value of a 4-byte chunk. -/
def wordOfBytes (l : List Nat) : Nat :=
  l.foldl (fun acc b => acc * 256 + b) 0

/-- SHA-1 message padding: append `0x80`, zero bytes up to 56 mod 64, and
the 8-byte big-endian bit length. -/
def sha1Pad (msg : List Nat) : List Nat :=
  msg ++ [128] ++ List.replicate ((119 - msg.length % 64) % 64) 0 ++
    natToBytesBE 8 (msg.length * 8)

/-- Message-schedule extension of 16 words to 80 words. -/
def sha1Schedule (w16 : List Nat) : List Nat :=
  (List.range 64).foldl
    (fun w _ =>
      w ++ [rotl32 ((w.getD (w.length - 3) 0) ^^^ (w.getD (w.length - 8) 0) ^^^
        (w.getD (w.length - 14) 0) ^^^ (w.getD (w.length - 16) 0)) 1])
    w16

/-- SHA-1 compression of one 64-byte block into the running state. -/
def sha1Compress (h : Nat × Nat × Nat × Nat × Nat) (block : List Nat) :
    Nat × Nat × Nat × Nat × Nat :=
  let w := sha1Schedule ((chunks 4 block).map wordOfBytes)
  let (h0, h1, h2, h3, h4) := h
  let (a, b, c, d, e) :=
    (List.range 80).foldl
      (fun st i =>
        let (a, b, c, d, e) := st
        let fk : Nat × Nat :=
          if i < 20 then ((b &&& c) ||| ((b ^^^ 4294967295) &&& d), 1518500249)
          else if i < 40 then (b ^^^ c ^^^ d, 1859775393)
          else if i < 60 then ((b &&& c) ||| (b &&& d) ||| (c &&& d), 2400959708)
          else (b ^^^ c ^^^ d, 3395469782)
        let temp := (rotl32 a 5 + fk.1 + e + fk.2 + w.getD i 0) % 4294967296
        (temp, a, rotl32 b 30, c, d))
      (h0, h1, h2, h3, h4)
  ((h0 + a) % 4294967296, (h1 + b) % 4294967296, (h2 + c) % 4294967296,
    (h3 + d) % 4294967296, (h4 + e) % 4294967296)

/-- SHA-1 digest (20 bytes) of a byte sequence. -/
def sha1 (msg : List Nat) : List Nat :=
  let st := (chunks 64 (sha1Pad msg)).foldl sha1Compress
    (1732584193, 4023233417, 2562383102, 271733878, 3285377520)
  natToBytesBE 4 st.1 ++ natToBytesBE 4 st.2.1 ++ natToBytesBE 4 st.2.2.1 ++
    natToBytesBE 4 st.2.2.2.1 ++ natToBytesBE 4 st.2.2.2.2

/-- UTF-8 encoding of one character. -/
def utf8EncodeChar (c : Char) : List Nat :=
  let n := c.toNat
  if n < 128 then [n]
  else if n < 2048 then [192 ||| (n >>> 6), 128 ||| (n &&& 63)]
  else if n < 65536 then
    [224 ||| (n >>> 12), 128 ||| ((n >>> 6) &&& 63), 128 ||| (n &&& 63)]
  else
    [240 ||| (n >>> 18), 128 ||| ((n >>> 12) &&& 63), 128 ||| ((n >>> 6) &&& 63),
      128 ||| (n &&& 63)]

/-- The UTF-8 bytes of a string (`name.encode("utf-8")`). -/
def utf8Bytes (s : String) : List Nat :=
  (s.data.map utf8EncodeChar).flatten

/-- The 16 bytes of `uuid.NAMESPACE_DNS`
(`6ba7b810-9dad-11d1-80b4-00c04fd430c8`). -/
def namespaceDNSBytes : List Nat :=
  [107, 167, 184, 16, 157, 173, 17, 209, 128, 180, 0, 192, 79, 212, 48, 200]

/-- Lower-case hexadecimal digit. -/
def hexDigit (n : Nat) : Char :=
  if n < 10 then Char.ofNat (48 + n) else Char.ofNat (87 + n)

/-- Two-character hexadecimal rendering of a byte. -/
def byteHex (b : Nat) : List Char :=
  [hexDigit (b / 16), hexDigit (b % 16)]

/-- Embedding of `str(uuid.uuid5(uuid.NAMESPACE_DNS, name))`: SHA-1 of
namespace bytes plus UTF-8 name, truncated to 16 bytes, with the version
nibble forced to 5 and the variant bits to `10`, rendered in the canonical
8-4-4-4-12 lower-case hexadecimal form. -/
def uuid5dns (name : String) : String :=
  let digest := (sha1 (namespaceDNSBytes ++ utf8Bytes name)).take 16
  let bytes := (digest.take 6) ++ [((digest.getD 6 0) &&& 15) ||| 80] ++
    [digest.getD 7 0] ++ [((digest.getD 8 0) &&& 63) ||| 128] ++ (digest.drop 9)
  let hex := bytes.map byteHex
  ⟨(hex.take 4).flatten ++ ['-'] ++ ((hex.drop 4).take 2).flatten ++ ['-'] ++
    ((hex.drop 6).take 2).flatten ++ ['-'] ++ ((hex.drop 8).take 2).flatten ++ ['-'] ++
    (hex.drop 10).flatten⟩

/-! ## Dynamic values, errors, logging and the network oracle

`extension/extension.py` is asynchronous code raising Python exceptions and
performing network calls.  Exceptions are modelled as `PyErr` values carried
in `Except`; `Logger` output as a list of `LogEntry` values; every network
call actually performed as a `RegCall` value appended to an explicit trace;
and the network itself as the pure oracle functions of a `ResolveEnv`
(an oracle returning `Except.error` models the corresponding `await`
raising). -/

/-- Dynamic JSON value as produced by `json5.loads`. -/
inductive Json where
  | null
  | bool (b : Bool)
  | num (n : Int)
  | str (s : String)
  | arr (elems : List Json)
  | obj (fields : List (String × Json))
deriving Repr

/-- Python exception classes distinguished by the handlers in
`Extension.__process_tag`. -/
inductive PyErr where
  | valueError (msg : String)
  | keyError (msg : String)
  | indexError (msg : String)
  | typeError (msg : String)
  | runtimeError (msg : String)
  | exception (msg : String)
deriving DecidableEq, Repr

/-- Message carried by an exception. -/
def PyErr.msg : PyErr → String
  | .valueError m => m
  | .keyError m => m
  | .indexError m => m
  | .typeError m => m
  | .runtimeError m => m
  | .exception m => m

/-- Severity of a `Logger` call. -/
inductive LogLevel where
  | info
  | warning
  | error
deriving DecidableEq, Repr

/-- One `Logger` call: severity, extension identifier, message. -/
structure LogEntry where
  level : LogLevel
  identifier : String
  message : String
deriving DecidableEq, Repr

/-- One network call performed during tag resolution. -/
inductive RegCall where
  | getManifest (ref : String)
  | getBlob (digest : String)
  | fetchReadme (url : String)
deriving DecidableEq, Repr

/-- Network / parsing oracles consumed by tag resolution: the registry
manifest and blob endpoints (`DockerRegistry.get_manifest` /
`get_manifest_blob`), the readme fetch and markdown post-processing
collaborators, and the `json5.loads` parser. -/
structure ResolveEnv where
  getManifest : String → Except String ManifestFetch
  getBlob : String → Except String Blob
  fetchReadme : String → Except String String
  processReadme : String → String → Except String String
  json5Loads : String → Except String Json

/-! ## `Extension.__is_compatible` and `__extract_valid_embedded_digest` -/

/-- Embedding of `Extension.__is_compatible`:
`platform.os == "linux" and "arm" in platform.architecture`. -/
def isCompatible (platform : ManifestPlatform) : Bool :=
  platform.os == "linux" && pyInStr "arm" platform.architecture

/-- Warning message logged when the compatible-entry count differs from
one. -/
def embeddedCountWarning (n : Nat) : String :=
  "Expected one valid manifest for target embedded arch but found: " ++ toString n

/-- Manifest-list half of `Extension.__extract_valid_embedded_digest`
(source lines after the compatibility filter), over the already filtered
compatible-entry list `validManifests`: a count different from one is
logged as a warning; then `valid_manifests[0]` is taken (an `IndexError`
when the filtered list is empty), its digest is re-fetched, and the
re-fetched manifest must be a single image (a `RuntimeError` when it is
again a list).  Returns the outcome together with the log entries emitted
and the network calls performed. -/
def extractFromValid (env : ResolveEnv) (identifier : String)
    (validManifests : List ManifestEntry) :
    Except PyErr String × List LogEntry × List RegCall :=
  let warns : List LogEntry :=
    if validManifests.length ≠ 1 then
      [{ level := .warning, identifier := identifier,
         message := embeddedCountWarning validManifests.length }]
    else []
  match validManifests with
  | [] => (.error (.indexError "list index out of range"), warns, [])
  | first :: _ =>
    match env.getManifest first.digest with
    | .error e => (.error (.exception e), warns, [.getManifest first.digest])
    | .ok mf =>
      match mf.manifest with
      | .image m2 => (.ok m2.config.digest, warns, [.getManifest first.digest])
      | .list _ =>
        (.error (.runtimeError "Expected to have a valid image manifest but got a manifest list"),
          warns, [.getManifest first.digest])

/-- Embedding of `Extension.__extract_valid_embedded_digest`.  A
single-image manifest immediately yields its config digest.  For a manifest
list, the entries compatible with the embedded platform are filtered and
handed to `extractFromValid`. -/
def extractValidEmbeddedDigest (env : ResolveEnv) (identifier : String)
    (fetch : ManifestFetch) : Except PyErr String × List LogEntry × List RegCall :=
  match fetch.manifest with
  | .image m => (.ok m.config.digest, [], [])
  | .list l =>
    extractFromValid env identifier
      (l.manifests.filter (fun entry => isCompatible entry.platform))

/-! ## `Extension.__extract_images_from_tag` / `__extract_images_from_manifest` -/

/-- Embedding of `Extension.__extract_images_from_tag`: keep the active
images with known architecture and OS, and shape them into `ExtImage`
records (empty strings are falsy, hence mapped to `None`). -/
def extractImagesFromTag (tag : Tag) : List ExtImage :=
  let activeImages := tag.images.filter (fun image =>
    image.status == "active" && image.architecture != "unknown" && image.os != "unknown")
  activeImages.map (fun image =>
    { digest := pyStrOrNone image.digest,
      expanded_size := image.size,
      platform := { architecture := image.architecture,
                    variant := pyStrOrNone (some image.variant),
                    os := pyStrOrNone (some image.os) } })

/-- Embedding of `Extension.__extract_images_from_manifest`: a single-image
manifest yields one record sized by the layer sum with the blob platform;
a manifest list yields one record per entry with size 0. -/
def extractImagesFromManifest (manifest_fetch : ManifestFetch) (blob : Blob) : List ExtImage :=
  match manifest_fetch.manifest with
  | .image m =>
    [{ digest := some m.config.digest,
       expanded_size := (m.layers.map (fun layer => layer.size)).sum,
       platform := { architecture := pyStrOrDefault blob.architecture "unknown",
                     variant := none,
                     os := some (pyStrOrDefault blob.os "unknown") } }]
  | .list l =>
    l.manifests.map (fun entry =>
      { digest := some entry.digest,
        expanded_size := 0,
        platform := { architecture := entry.platform.architecture,
                      variant := match entry.platform.variant with
                        | some v => if v = "" then none else some v
                        | none => none,
                      os := pyStrOrNone (some entry.platform.os) } })

/-! ## `Extension.__create_version` -/

/-- Python truthiness of a dynamic JSON value. -/
def Json.truthy : Json → Bool
  | .null => false
  | .bool b => b
  | .num n => n ≠ 0
  | .str s => s ≠ ""
  | .arr elems => !elems.isEmpty
  | .obj fields => !fields.isEmpty

/-- View a dynamic value as a dictionary; anything else raises when `.pop`
is called on it (modelled as a `TypeError`). -/
def Json.asObj : Json → Except PyErr (List (String × Json))
  | .obj fields => .ok fields
  | _ => .error (.typeError "value has no attribute pop")

/-- Embedding of `dict.pop(key, default)`: the removed value (or the
default) together with the remaining dictionary. -/
def jpop (d : List (String × Json)) (key : String) (default : Option Json) :
    Option Json × List (String × Json) :=
  match d.lookup key with
  | some v => (some v, d.eraseP (fun kv => kv.1 == key))
  | none => (default, d)

/-- Coerce the elements of a decoded JSON list to strings; a non-string
element raises when `.replace` is called on it in
`validate_filter_tags` (modelled as a `TypeError`). -/
def jsonStrElems : List Json → Except PyErr (List String)
  | [] => .ok []
  | .str s :: rest => (jsonStrElems rest).map (fun l => s :: l)
  | _ :: _ => .error (.typeError "element has no attribute replace")

/-- View a decoded JSON value as a list of strings (the shape
`validate_filter_tags` iterates over). -/
def jsonToStrList : Json → Except PyErr (List String)
  | .arr elems => jsonStrElems elems
  | _ => .error (.typeError "value is not iterable")

/-- Embedding of `json5.loads(x) if x else None` for an `Optional` dynamic
value `x` (the `docs_raw` case, which may hold a value popped from `links`
or a label string): `loads` requires a string argument. -/
def jloadsOptJson (env : ResolveEnv) (o : Option Json) : Except PyErr (Option Json) :=
  match o with
  | none => .ok none
  | some j =>
    if j.truthy then
      match j with
      | .str s =>
        match env.json5Loads s with
        | .ok v => .ok (some v)
        | .error e => .error (.valueError e)
      | _ => .error (.typeError "json5.loads expects a string")
    else .ok none

/-- Embedding of `json5.loads(x) if x else None` for an `Optional[str]`
label value (the `company_raw` / `permissions_raw` cases). -/
def jloadsOptStr (env : ResolveEnv) (o : Option String) : Except PyErr (Option Json) :=
  if pyTruthyStr o then
    match o with
    | some s =>
      match env.json5Loads s with
      | .ok v => .ok (some v)
      | .error e => .error (.valueError e)
    | none => .ok none
  else .ok none

/-- Version record built per tag (`ExtensionVersion` dataclass).  Fields
that the source annotates with nominal types but fills with raw
`json5.loads` output (`website`, `support`, `authors`, `docs`, `company`,
`permissions`, `extra_links`) are modelled with the dynamic `Json` type,
matching the runtime values. -/
structure ExtensionVersion where
  identifier : String
  type : ExtensionType
  website : Option Json
  images : List ExtImage
  authors : Json
  filter_tags : List String
  extra_links : List (String × Json)
  tag : Option String := none
  docs : Option Json := none
  readme : Option String := none
  support : Option Json := none
  requirements : Option String := none
  company : Option Json := none
  permissions : Option Json := none
deriving Repr

/-- Embedding of `Extension.__create_version`, following the statement
order of the source: parse the `links` and `tags` label JSON, pop
`docs` / `documentation` from the links, fetch and post-process the readme
(failures here only warn: a fetch failure falls back to
"No README available", a post-process failure keeps the fetched text),
derive the image list (hub tag first, manifest fallback, an error log when
both are empty), then build the record — evaluating, in the argument order
of the `ExtensionVersion(...)` call, the `ExtensionType` label (raises
`ValueError` on an unrecognized value), the `website` / `support` pops, the
`authors` JSON, the filter-tag validation and the `docs` / `company` /
`permissions` JSON.  Returns the outcome with the logs emitted and the
network calls performed. -/
def createVersion (env : ResolveEnv) (identifier tag_name : String) (blob : Blob)
    (manifest : ManifestFetch) (hub_tag : Option Tag) :
    Except PyErr ExtensionVersion × List LogEntry × List RegCall :=
  let labels := blob.config.Labels
  let authorsRaw := lget labels "authors" "[]"
  match env.json5Loads (lget labels "links" "\x7b\x7d") with
  | .error e => (.error (.valueError e), [], [])
  | .ok linksJson =>
    match linksJson.asObj with
    | .error e => (.error e, [], [])
    | .ok links0 =>
      match env.json5Loads (lget labels "tags" "[]") with
      | .error e => (.error (.valueError e), [], [])
      | .ok ftagsJson =>
        let popDocumentation := jpop links0 "documentation" ((lgetOpt labels "docs").map Json.str)
        let popDocs := jpop popDocumentation.2 "docs" popDocumentation.1
        let docsRaw := popDocs.1
        let links2 := popDocs.2
        let companyRaw := lgetOpt labels "company"
        let permissionsRaw := lgetOpt labels "permissions"
        let readmeStep : Option String × List LogEntry × List RegCall :=
          match lgetOpt labels "readme" with
          | none => (none, [], [])
          | some r =>
            let url := pyReplace r "\x7btag\x7d" tag_name
            match env.fetchReadme url with
            | .error e =>
              (some "No README available",
                [{ level := .warning, identifier := identifier, message := e }],
                [.fetchReadme url])
            | .ok text =>
              match env.processReadme text (pyRsplitSlashHead url) with
              | .error e =>
                (some text, [{ level := .warning, identifier := identifier, message := e }],
                  [.fetchReadme url])
              | .ok processed => (some processed, [], [.fetchReadme url])
        let readme := readmeStep.1
        let images0 := match hub_tag with
          | some t => extractImagesFromTag t
          | none => []
        let images := if images0.isEmpty then extractImagesFromManifest manifest blob else images0
        let imgLogs : List LogEntry :=
          if images.isEmpty then
            [{ level := .error, identifier := identifier,
               message := "Could not find images associated with tag " ++ tag_name ++
                 " for extension " ++ identifier }]
          else []
        let logs := readmeStep.2.1 ++ imgLogs
        let calls := readmeStep.2.2
        let tagIdentifier := uuid5dns (identifier ++ "." ++ tag_name)
        match extensionTypeOfString (lget labels "type" ExtensionType.OTHER.value) with
        | .error e => (.error (.valueError e), logs, calls)
        | .ok ty =>
          let popWebsite := jpop links2 "website" ((lgetOpt labels "website").map Json.str)
          let popSupport := jpop popWebsite.2 "support" ((lgetOpt labels "support").map Json.str)
          match env.json5Loads authorsRaw with
          | .error e => (.error (.valueError e), logs, calls)
          | .ok authorsJson =>
            match jsonToStrList ftagsJson with
            | .error e => (.error e, logs, calls)
            | .ok ftagsList =>
              match jloadsOptJson env docsRaw with
              | .error e => (.error e, logs, calls)
              | .ok docs =>
                match jloadsOptStr env companyRaw with
                | .error e => (.error e, logs, calls)
                | .ok company =>
                  match jloadsOptStr env permissionsRaw with
                  | .error e => (.error e, logs, calls)
                  | .ok permissions =>
                    (.ok { identifier := tagIdentifier,
                           tag := some tag_name,
                           type := ty,
                           website := popWebsite.1,
                           readme := readme,
                           support := popSupport.1,
                           requirements := lgetOpt labels "requirements",
                           extra_links := popSupport.2,
                           authors := authorsJson,
                           filter_tags := validate_filter_tags ftagsList,
                           docs := docs,
                           company := company,
                           permissions := permissions,
                           images := images }, logs, calls)

/-! ## `Extension.__process_tag` and the per-extension fold -/

/-- Embedding of the `try` block of `Extension.__process_tag`: semver
validation (raising `ValueError` for an invalid name, before any network
call), manifest fetch, embedded-digest extraction, blob fetch and version
construction. -/
def resolveTag (env : ResolveEnv) (identifier tag_name : String) (hub_tag : Option Tag) :
    Except PyErr ExtensionVersion × List LogEntry × List RegCall :=
  match valid_semver tag_name with
  | none => (.error (.valueError ("Invalid version naming: " ++ tag_name)), [], [])
  | some _ =>
    match env.getManifest tag_name with
    | .error e => (.error (.exception e), [], [.getManifest tag_name])
    | .ok manifest =>
      let ext := extractValidEmbeddedDigest env identifier manifest
      match ext.1 with
      | .error e => (.error e, ext.2.1, .getManifest tag_name :: ext.2.2)
      | .ok digest =>
        match env.getBlob digest with
        | .error e =>
          (.error (.exception e), ext.2.1, .getManifest tag_name :: ext.2.2 ++ [.getBlob digest])
        | .ok blob =>
          let cv := createVersion env identifier tag_name blob manifest hub_tag
          (cv.1, ext.2.1 ++ cv.2.1, .getManifest tag_name :: ext.2.2 ++ [.getBlob digest] ++ cv.2.2)

/-- Error log message of the three `except` handlers of
`Extension.__process_tag`. -/
def processTagErrorLog (identifier tag_name : String) : PyErr → String
  | .valueError m =>
    "Invalid tag name " ++ tag_name ++ " for extension " ++ identifier ++ ", error: " ++ m
  | .keyError m =>
    "Failed to generate version " ++ tag_name ++ " for extension " ++ identifier ++
      ", error in key: " ++ m
  | e =>
    "Failed to generate version " ++ tag_name ++ " for extension " ++ identifier ++
      ", error: " ++ e.msg

/-- The per-extension version map (`self.versions`, a `dict` keyed by tag
name). -/
def VersionMap : Type := String → Option ExtensionVersion

/-- Embedding of `Extension.__process_tag`: run the `try` block; on success
store the version under the tag name and log an info line; any raised
error is caught at this boundary, logged with the extension identifier, and
leaves the version map unchanged. -/
def processTag (env : ResolveEnv) (identifier : String) (versions : VersionMap)
    (tag_name : String) (hub_tag : Option Tag) :
    VersionMap × List LogEntry × List RegCall :=
  let r := resolveTag env identifier tag_name hub_tag
  match r.1 with
  | .ok v =>
    (Function.update versions tag_name (some v),
      r.2.1 ++ [{ level := .info, identifier := identifier,
                  message := "Generated version entry " ++ tag_name ++ " for extension " ++ identifier }],
      r.2.2)
  | .error e =>
    (versions,
      r.2.1 ++ [{ level := .error, identifier := identifier,
                  message := processTagErrorLog identifier tag_name e }],
      r.2.2)

/-- Embedding of the per-extension fan-out of `Extension.inflate` over the
standard V2 tag listing (`asyncio.gather` of `__process_tag` tasks): each
task writes a distinct key, so the concurrent execution is modelled as a
fold over the tag list, starting from the empty `self.versions` map. -/
def processAllTags (env : ResolveEnv) (identifier : String) (tag_names : List String) :
    VersionMap :=
  tag_names.foldl (fun m t => (processTag env identifier m t none).1) (fun _ => none)

/-! ## Concrete fixtures

Small concrete registries and extensions used to instantiate the theorems
below on closed inputs. -/

/-- Oracle environment in which every network call and parse fails. -/
def dummyEnv : ResolveEnv :=
  { getManifest := fun _ => .error "network unreachable",
    getBlob := fun _ => .error "network unreachable",
    fetchReadme := fun _ => .error "network unreachable",
    processReadme := fun _ _ => .error "network unreachable",
    json5Loads := fun _ => .error "parse error" }

/-- A config blob whose labels carry only a `tool` type. -/
def blobA : Blob :=
  { config := { Env := [], Labels := [("type", "tool")] },
    architecture := some "arm64", os := some "linux" }

/-- A config blob with no `type` label. -/
def blobNoType : Blob :=
  { config := { Env := [], Labels := [] },
    architecture := some "arm64", os := some "linux" }

/-- A config blob with an unrecognized `type` label. -/
def blobBadType : Blob :=
  { config := { Env := [], Labels := [("type", "firmware")] },
    architecture := some "arm64", os := some "linux" }

/-- A single-image manifest with config digest `cfg`. -/
def imageManifestA : ImageManifest :=
  { schemaVersion := 2, mediaType := "mi",
    config := { mediaType := "mc", size := 1, digest := "cfg" },
    layers := [{ mediaType := "ml", size := 10, digest := "ld" }] }

/-- A compatible (linux/arm64) manifest-list entry with digest `d1`. -/
def entryArm : ManifestEntry :=
  { mediaType := "mm", size := 1, digest := "d1",
    platform := { architecture := "arm64", os := "linux" } }

/-- A second compatible (linux/arm/v7) entry with digest `d3`. -/
def entryArmV7 : ManifestEntry :=
  { mediaType := "mm", size := 1, digest := "d3",
    platform := { architecture := "arm", os := "linux", variant := some "v7" } }

/-- An incompatible (linux/amd64) entry with digest `d2`. -/
def entryAmd : ManifestEntry :=
  { mediaType := "mm", size := 1, digest := "d2",
    platform := { architecture := "amd64", os := "linux" } }

/-- A manifest list with exactly one compatible entry. -/
def listA : ManifestList :=
  { schemaVersion := 2, mediaType := "ml", manifests := [entryArm, entryAmd] }

/-- A manifest list with two compatible entries. -/
def listTwoArm : ManifestList :=
  { schemaVersion := 2, mediaType := "ml", manifests := [entryArm, entryArmV7, entryAmd] }

/-- A manifest list with no compatible entry. -/
def listNoArm : ManifestList :=
  { schemaVersion := 2, mediaType := "ml", manifests := [entryAmd] }

/-- Environment serving the tag `1.0.0` as the list `listA`, the digest
`d1` as the single image `imageManifestA`, the digest `cfg` as `blobA`, and
parsing only the default empty JSON label values. -/
def envA : ResolveEnv :=
  { getManifest := fun r =>
      if r = "1.0.0" then .ok { manifest := .list listA }
      else if r = "d1" then .ok { manifest := .image imageManifestA }
      else .error "404",
    getBlob := fun d => if d = "cfg" then .ok blobA else .error "404",
    fetchReadme := fun _ => .error "network unreachable",
    processReadme := fun _ _ => .error "network unreachable",
    json5Loads := fun s =>
      if s = "[]" then .ok (.arr [])
      else if s = "\x7b\x7d" then .ok (.obj [])
      else .error "parse error" }

/-- Environment like `envA` but in which the digest `d1` resolves to yet
another manifest list. -/
def envB : ResolveEnv :=
  { envA with
    getManifest := fun r =>
      if r = "1.0.0" then .ok { manifest := .list listA }
      else if r = "d1" then .ok { manifest := .list listA }
      else .error "404" }

/-- Environment like `envA` but serving the blob `blobNoType` for `cfg`. -/
def envNoType : ResolveEnv :=
  { envA with getBlob := fun d => if d = "cfg" then .ok blobNoType else .error "404" }

/-- Environment like `envA` but serving the blob `blobBadType` for `cfg`. -/
def envBadType : ResolveEnv :=
  { envA with getBlob := fun d => if d = "cfg" then .ok blobBadType else .error "404" }

/-! ## Supporting lemmas -/

/-- Characters of any component of a Python-style split come from the input
and are never the separator. -/
theorem mem_of_mem_pySplitChars {sep : Char} {l part : List Char} {c : Char}
    (hp : part ∈ pySplitChars sep l) (hc : c ∈ part) : c ∈ l ∧ c ≠ sep := by
  induction l generalizing part with
  | nil =>
    simp only [pySplitChars, List.mem_singleton] at hp
    subst hp
    simp at hc
  | cons a rest ih =>
    simp only [pySplitChars] at hp
    by_cases ha : a = sep
    · rw [if_pos ha] at hp
      rcases List.mem_cons.mp hp with h | h
      · subst h
        simp at hc
      · obtain ⟨hcl, hne⟩ := ih h hc
        exact ⟨List.mem_cons_of_mem _ hcl, hne⟩
    · rw [if_neg ha] at hp
      cases hr : pySplitChars sep rest with
      | nil =>
        rw [hr] at hp
        simp only [List.mem_singleton] at hp
        subst hp
        rcases List.mem_singleton.mp hc with rfl
        exact ⟨List.mem_cons_self _ _, ha⟩
      | cons h t =>
        rw [hr] at hp
        rcases List.mem_cons.mp hp with hph | hpt
        · subst hph
          rcases List.mem_cons.mp hc with rfl | hch
          · exact ⟨List.mem_cons_self _ _, ha⟩
          · obtain ⟨hcl, hne⟩ := ih (hr ▸ List.mem_cons_self h t) hch
            exact ⟨List.mem_cons_of_mem _ hcl, hne⟩
        · obtain ⟨hcl, hne⟩ := ih (hr ▸ List.mem_cons_of_mem h hpt) hc
          exact ⟨List.mem_cons_of_mem _ hcl, hne⟩

/-- No component of `pySplit` applied after the colon-stripping step of
`DockerImageRef.parse` can contain a colon. -/
theorem pySplit_of_stripped_no_colon (docker : String)
    {p : String} (hp : p ∈ pySplit (pySplitHead (pySplitHead docker '@') ':') '/') :
    pyContainsChar p ':' = false := by
  rcases List.mem_map.mp hp with ⟨part, hpart, rfl⟩
  show part.contains ':' = false
  simp only [List.contains, List.elem_eq_mem, decide_eq_false_iff_not]
  intro hmem
  have h1 : (':' : Char) ∈ (pySplitHead (pySplitHead docker '@') ':').data ∧ ':' ≠ '/' :=
    mem_of_mem_pySplitChars hpart hmem
  have h2 := List.mem_takeWhile_imp h1.1
  simp at h2

/-- Claim C1 (counterexample): the raw reference `localhost:5000/org/repo`,
whose first slash-segment contains a colon, does NOT yield that segment as
the registry host: the source truncates the string at the first colon, so
the parse yields registry `docker.io` with repository `localhost`. -/
theorem claim1_counterexample :
    DockerImageRef.parse "localhost:5000/org/repo" =
      { registry := "docker.io", repository := "localhost" } ∧
    (DockerImageRef.parse "localhost:5000/org/repo").registry ≠ "localhost:5000" := by
  constructor
  · decide
  · decide

/-- Claim C1 (amended): parsing truncates the raw reference at the first
`@` and then at the first `:` (wherever the colon occurs, not only in a
trailing tag), then splits the remainder on `/`.  Consequently no segment
ever contains a colon — the colon disjunct of the host test can never fire —
and for the stripped name: with at least 3 segments whose first contains a
dot or equals `localhost`, that first segment is the registry host and the
remaining segments joined by `/` are the repository; otherwise the registry
is `docker.io` and the repository is the full stripped name. -/
theorem claim1_parse_characterization (docker name : String) (parts : List String)
    (hname : name = pySplitHead (pySplitHead docker '@') ':')
    (hparts : parts = pySplit name '/') :
    (∀ p ∈ parts, pyContainsChar p ':' = false) ∧
    (match parts with
     | p0 :: p1 :: p2 :: rest =>
       DockerImageRef.parse docker =
         if pyContainsChar p0 '.' ∨ p0 = "localhost" then
           { registry := p0,
             repository := ⟨List.intercalate ['/'] ((p1 :: p2 :: rest).map String.data)⟩ }
         else
           { registry := "docker.io", repository := name }
     | _ => DockerImageRef.parse docker = { registry := "docker.io", repository := name }) := by
  subst hname
  refine ⟨fun p hp => pySplit_of_stripped_no_colon docker (hparts ▸ hp), ?_⟩
  have hparse : DockerImageRef.parse docker =
      if 3 ≤ parts.length ∧
          (pyContainsChar (parts.headD "") '.' ∨ pyContainsChar (parts.headD "") ':' ∨
            parts.headD "" = "localhost") then
        { registry := parts.headD "",
          repository := ⟨List.intercalate ['/'] ((parts.map String.data).tail)⟩ }
      else
        { registry := "docker.io",
          repository := pySplitHead (pySplitHead docker '@') ':' } := by
    rw [hparts]
    rfl
  match hps : parts with
  | [] => simpa using hparse
  | [p0] => simpa using hparse
  | [p0, p1] => simpa using hparse
  | p0 :: p1 :: p2 :: rest =>
    have hmem : p0 ∈ pySplit (pySplitHead (pySplitHead docker '@') ':') '/' :=
      hparts ▸ List.mem_cons_self _ _
    have hnc : pyContainsChar p0 ':' = false :=
      pySplit_of_stripped_no_colon docker hmem
    simp only [List.headD_cons, List.length_cons, List.map_cons, List.tail_cons] at hparse
    dsimp only
    by_cases hc : pyContainsChar p0 '.' ∨ p0 = "localhost"
    · have hcond : 3 ≤ rest.length + 1 + 1 + 1 ∧
          (pyContainsChar p0 '.' = true ∨ pyContainsChar p0 ':' = true ∨ p0 = "localhost") := by
        constructor
        · omega
        · rcases hc with h | h
          · exact Or.inl h
          · exact Or.inr (Or.inr h)
      rw [if_pos hc, hparse, if_pos hcond]
      simp
    · have hcond : ¬(3 ≤ rest.length + 1 + 1 + 1 ∧
          (pyContainsChar p0 '.' = true ∨ pyContainsChar p0 ':' = true ∨ p0 = "localhost")) := by
        rintro ⟨-, h | h | h⟩
        · exact hc (Or.inl h)
        · rw [hnc] at h
          exact Bool.false_ne_true h
        · exact hc (Or.inr h)
      rw [if_neg hc, hparse, if_neg hcond]

/-- Witness for C1: the amended characterization applied to the concrete
reference `ghcr.io/bluerobotics/blueos-doris:0.0.1`. -/
theorem claim1_witness :
    DockerImageRef.parse "ghcr.io/bluerobotics/blueos-doris:0.0.1" =
      { registry := "ghcr.io", repository := "bluerobotics/blueos-doris" } := by
  have h := (claim1_parse_characterization "ghcr.io/bluerobotics/blueos-doris:0.0.1"
    _ _ rfl rfl).2
  exact h

/-- Unfolding helper: on a manifest list, the embedded-digest extraction is
`extractFromValid` applied to the filtered compatible-entry list. -/
theorem extract_list_unfold (env : ResolveEnv) (identifier : String) (l : ManifestList) :
    extractValidEmbeddedDigest env identifier { manifest := .list l } =
      extractFromValid env identifier
        (l.manifests.filter (fun entry => isCompatible entry.platform)) := rfl

/-- Claim C2 (amended): for a fetched manifest collection, when the number
of entries compatible with the embedded platform (os `linux` and an `arm`
architecture) differs from one — zero, or more than one — a warning is
logged (and no warning is logged when the count is exactly one).  With at
least one compatible entry, resolution proceeds using the first compatible
entry in list order.  With zero compatible entries, however, resolution
does NOT proceed: taking `valid_manifests[0]` of the empty list raises an
`IndexError`, so resolution of that tag fails. -/
theorem claim2_compatible_count_policy (env : ResolveEnv) (identifier : String)
    (l : ManifestList) (r : Except PyErr String × List LogEntry × List RegCall)
    (valid : List ManifestEntry)
    (hr : r = extractValidEmbeddedDigest env identifier { manifest := .list l })
    (hv : valid = l.manifests.filter (fun entry => isCompatible entry.platform)) :
    (r.2.1 ≠ [] ↔ valid.length ≠ 1) ∧
    (valid = [] → r.1 = .error (.indexError "list index out of range")) ∧
    (∀ first rest, valid = first :: rest →
      r.1 = match env.getManifest first.digest with
        | .error e => .error (.exception e)
        | .ok mf =>
          match mf.manifest with
          | .image m2 => .ok m2.config.digest
          | .list _ =>
            .error (.runtimeError
              "Expected to have a valid image manifest but got a manifest list")) := by
  have hre : r = extractFromValid env identifier valid := by
    rw [hr, extract_list_unfold, ← hv]
  rw [hre]
  clear hr hre
  cases valid with
  | nil =>
    refine ⟨by simp [extractFromValid], fun _ => by simp [extractFromValid],
      fun first rest h => absurd h (by simp)⟩
  | cons first rest =>
    refine ⟨?_, fun h => absurd h (by simp), ?_⟩
    · simp only [extractFromValid]
      cases henv : env.getManifest first.digest with
      | error e =>
        by_cases hr1 : rest = [] <;> simp [hr1]
      | ok mf =>
        obtain ⟨mv⟩ := mf
        cases mv with
        | image m2 => by_cases hr1 : rest = [] <;> simp [hr1]
        | list l2 => by_cases hr1 : rest = [] <;> simp [hr1]
    · rintro f2 r2 heq
      injection heq with heq1 heq2
      subst heq1
      subst heq2
      simp only [extractFromValid]
      cases henv : env.getManifest first.digest with
      | error e => simp
      | ok mf =>
        obtain ⟨mv⟩ := mf
        cases mv with
        | image m2 => simp
        | list l2 => simp

/-- Counterexample for C2: with zero compatible entries the source logs the
warning and then fails with an `IndexError` — it does not proceed, refuting
"resolution still proceeds with the first compatible entry found". -/
theorem claim2_counterexample :
    (extractValidEmbeddedDigest dummyEnv "ext" { manifest := .list listNoArm }).1 =
      .error (.indexError "list index out of range") ∧
    (extractValidEmbeddedDigest dummyEnv "ext" { manifest := .list listNoArm }).2.1 ≠ [] := by
  constructor
  · decide
  · decide

/-- Witness for C2: the amended policy applied to a concrete list with two
compatible entries — a warning is logged and resolution proceeds with the
first compatible entry (digest `d1`), yielding config digest `cfg`. -/
theorem claim2_witness :
    (extractValidEmbeddedDigest envA "ext" { manifest := .list listTwoArm }).1 = .ok "cfg" ∧
    (extractValidEmbeddedDigest envA "ext" { manifest := .list listTwoArm }).2.1 ≠ [] := by
  have h := claim2_compatible_count_policy envA "ext" listTwoArm _ _ rfl rfl
  constructor
  · rw [h.2.2 entryArm [entryArmV7] (by decide)]
    decide
  · exact h.1.mpr (by decide)

/-- Claim C3: when a manifest collection's chosen compatible entry is
re-fetched and the second fetch resolves to another collection, resolution
raises a `RuntimeError`; a config digest is returned only when the
re-fetched manifest is a single-image manifest (and then it is that
manifest's config digest). -/
theorem claim3_refetch_single_image (env : ResolveEnv) (identifier : String)
    (l : ManifestList) (first : ManifestEntry) (rest : List ManifestEntry)
    (hvalid : l.manifests.filter (fun entry => isCompatible entry.platform) = first :: rest) :
    ((∃ l2, env.getManifest first.digest = .ok { manifest := .list l2 }) →
      (extractValidEmbeddedDigest env identifier { manifest := .list l }).1 =
        .error (.runtimeError
          "Expected to have a valid image manifest but got a manifest list")) ∧
    (∀ d, (extractValidEmbeddedDigest env identifier { manifest := .list l }).1 = .ok d →
      ∃ m2, env.getManifest first.digest = .ok { manifest := .image m2 } ∧
        d = m2.config.digest) := by
  have hre : extractValidEmbeddedDigest env identifier { manifest := .list l } =
      extractFromValid env identifier (first :: rest) := by
    rw [extract_list_unfold, hvalid]
  rw [hre]
  simp only [extractFromValid]
  constructor
  · rintro ⟨l2, hl2⟩
    rw [hl2]
  · intro d hd
    cases henv : env.getManifest first.digest with
    | error e =>
      rw [henv] at hd
      simp at hd
    | ok mf =>
      rw [henv] at hd
      obtain ⟨mv⟩ := mf
      cases mv with
      | image m2 =>
        simp only [Except.ok.injEq] at hd
        exact ⟨m2, rfl, hd.symm⟩
      | list l2 =>
        simp at hd

/-- Witness for C3: in the concrete environment `envB` the digest `d1`
chosen from `listA` re-fetches to another manifest list, so resolution
fails with the `RuntimeError`. -/
theorem claim3_witness :
    (extractValidEmbeddedDigest envB "ext" { manifest := .list listA }).1 =
      .error (.runtimeError
        "Expected to have a valid image manifest but got a manifest list") := by
  have h := (claim3_refetch_single_image envB "ext" listA entryArm [] (by decide)).1
  exact h ⟨listA, by decide⟩

/-- Decoding the filtered entries never fails and yields exactly the
per-entry decodes of the platform-bearing entries. -/
theorem decodeRawEntries_filter (entries : List RawManifestEntry) :
    decodeRawEntries (entries.filter (fun m => m.platform.isSome)) =
      some (entries.filterMap decodeRawEntry) := by
  induction entries with
  | nil => rfl
  | cons m rest ih =>
    cases hp : m.platform with
    | none =>
      simp [List.filter_cons, List.filterMap_cons, decodeRawEntry, decodeRawEntries, hp, ih]
    | some p =>
      simp [List.filter_cons, List.filterMap_cons, decodeRawEntry, decodeRawEntries, hp, ih]

/-- The decoded entries are in bijection with the platform-bearing raw
entries: same count. -/
theorem filterMap_decode_length (entries : List RawManifestEntry) :
    (entries.filterMap decodeRawEntry).length =
      (entries.filter (fun m => m.platform.isSome)).length := by
  induction entries with
  | nil => rfl
  | cons m rest ih =>
    cases hp : m.platform with
    | none => simp [List.filter_cons, List.filterMap_cons, decodeRawEntry, hp, ih]
    | some p => simp [List.filter_cons, List.filterMap_cons, decodeRawEntry, hp, ih]

/-- The decoded entries carry the digests of the platform-bearing raw
entries, in order. -/
theorem filterMap_decode_digests (entries : List RawManifestEntry) :
    (entries.filterMap decodeRawEntry).map (fun e => e.digest) =
      (entries.filter (fun m => m.platform.isSome)).map (fun m => m.digest) := by
  induction entries with
  | nil => rfl
  | cons m rest ih =>
    cases hp : m.platform with
    | none => simp [List.filter_cons, List.filterMap_cons, decodeRawEntry, hp, ih]
    | some p => simp [List.filter_cons, List.filterMap_cons, decodeRawEntry, hp, ih]

/-- Claim C4: decoding a raw manifest-list/OCI-index body (no `config` key,
a `manifests` key present) always succeeds and the decoded collection
contains exactly the raw entries that have a `platform` field: entries
lacking a platform are filtered out before typed decoding, no entry with a
platform is dropped, and the surviving digests are preserved in order. -/
theorem claim4_platform_filter (raw : RawManifestDoc) (entries : List RawManifestEntry)
    (hc : raw.config = none) (hm : raw.manifests = some entries) :
    getManifestDecode raw =
      some { manifest := .list
                { schemaVersion := raw.schemaVersion,
                  mediaType := raw.mediaType,
                  manifests := entries.filterMap decodeRawEntry } } ∧
    (entries.filterMap decodeRawEntry).length =
      (entries.filter (fun m => m.platform.isSome)).length ∧
    (entries.filterMap decodeRawEntry).map (fun e => e.digest) =
      (entries.filter (fun m => m.platform.isSome)).map (fun m => m.digest) := by
  refine ⟨?_, filterMap_decode_length entries, filterMap_decode_digests entries⟩
  unfold getManifestDecode
  rw [hc, hm]
  simp [decodeRawEntries_filter]

/-- Witness for C4: a concrete OCI index holding two platform entries and
one attestation entry without a platform decodes to exactly the two
platform entries. -/
theorem claim4_witness :
    getManifestDecode
      { schemaVersion := 2, mediaType := "oci-index", config := none, layers := none,
        manifests := some
          [{ mediaType := "mm", size := 1, digest := "d1",
               platform := some { architecture := "arm64", os := "linux" } },
           { mediaType := "att", size := 2, digest := "datt", platform := none },
           { mediaType := "mm", size := 3, digest := "d2",
               platform := some { architecture := "amd64", os := "linux" } }] } =
      some { manifest := .list
                { schemaVersion := 2,
                  mediaType := "oci-index",
                  manifests :=
                    [{ mediaType := "mm", size := 1, digest := "d1",
                       platform := { architecture := "arm64", os := "linux" } },
                     { mediaType := "mm", size := 3, digest := "d2",
                       platform := { architecture := "amd64", os := "linux" } }] } } := by
  have h := (claim4_platform_filter
    { schemaVersion := 2, mediaType := "oci-index", config := none, layers := none,
      manifests := some
        [{ mediaType := "mm", size := 1, digest := "d1",
             platform := some { architecture := "arm64", os := "linux" } },
         { mediaType := "att", size := 2, digest := "datt", platform := none },
         { mediaType := "mm", size := 3, digest := "d2",
             platform := some { architecture := "amd64", os := "linux" } }] }
    _ rfl rfl).1
  rw [h]
  decide

/-- Claim C5: for a tag name that is not valid semantic-version syntax
(after the optional leading `v`), per-tag processing performs no network
call at all (in particular no manifest fetch and no blob fetch), emits
exactly one error log naming the invalid tag, and leaves the version map
unchanged — so the tag is absent from the resulting version map whenever it
was not already present. -/
theorem claim5_invalid_tag_no_network (env : ResolveEnv) (identifier : String)
    (versions : VersionMap) (tag_name : String) (hub_tag : Option Tag)
    (h : valid_semver tag_name = none) :
    processTag env identifier versions tag_name hub_tag =
      (versions,
        [{ level := .error, identifier := identifier,
           message := "Invalid tag name " ++ tag_name ++ " for extension " ++ identifier ++
             ", error: " ++ ("Invalid version naming: " ++ tag_name) }],
        []) ∧
    (versions tag_name = none →
      (processTag env identifier versions tag_name hub_tag).1 tag_name = none) := by
  have hres : resolveTag env identifier tag_name hub_tag =
      (.error (.valueError ("Invalid version naming: " ++ tag_name)), [], []) := by
    unfold resolveTag
    rw [h]
  have heq : processTag env identifier versions tag_name hub_tag =
      (versions,
        [{ level := .error, identifier := identifier,
           message := "Invalid tag name " ++ tag_name ++ " for extension " ++ identifier ++
             ", error: " ++ ("Invalid version naming: " ++ tag_name) }],
        []) := by
    unfold processTag
    rw [hres]
    rfl
  exact ⟨heq, fun h0 => by rw [heq]; exact h0⟩

/-- Witness for C5: processing the concrete non-semver tag `latest` in a
concrete environment calls nothing, logs the invalid tag, and leaves the
(empty) version map without the tag. -/
theorem claim5_witness :
    (processTag envA "ext" (fun _ => none) "latest" none).2.1 =
      [{ level := .error, identifier := "ext",
         message := "Invalid tag name latest for extension ext, error: Invalid version naming: latest" }] ∧
    (processTag envA "ext" (fun _ => none) "latest" none).2.2 = [] ∧
    (processTag envA "ext" (fun _ => none) "latest" none).1 "latest" = none := by
  have h := claim5_invalid_tag_no_network envA "ext" (fun _ => none) "latest" none (by decide)
  refine ⟨?_, ?_, h.2 rfl⟩
  · rw [h.1]
    decide
  · rw [h.1]

/-- One `__process_tag` call touches the version map only at its own tag:
at the processed tag the map gains the resolved version exactly when
resolution succeeded, and every other key is untouched. -/
theorem processTag_map_apply (env : ResolveEnv) (identifier : String) (m : VersionMap)
    (t : String) (hub : Option Tag) (t2 : String) :
    (processTag env identifier m t hub).1 t2 =
      (if t2 = t then
        match (resolveTag env identifier t hub).1 with
        | .ok v => some v
        | .error _ => m t2
      else m t2) := by
  unfold processTag
  dsimp only
  cases hr : (resolveTag env identifier t hub).1 with
  | ok v =>
    simp [Function.update_apply]
  | error e =>
    by_cases ht : t2 = t <;> simp [ht]

/-- Folding `__process_tag` over a tag list: the resulting map at key `t`
holds the resolution outcome of `t` itself when `t` is in the list and its
own resolution succeeded, and the initial value otherwise — sibling tags
never interfere. -/
theorem foldl_processTag_apply (env : ResolveEnv) (identifier : String)
    (tag_names : List String) (m : VersionMap) (t : String) :
    (tag_names.foldl (fun acc tg => (processTag env identifier acc tg none).1) m) t =
      (if t ∈ tag_names ∧ ((resolveTag env identifier t none).1).isOk then
        ((resolveTag env identifier t none).1).toOption
      else m t) := by
  induction tag_names generalizing m with
  | nil => simp
  | cons t0 rest ih =>
    rw [List.foldl_cons, ih, processTag_map_apply]
    by_cases ht : t = t0
    · subst ht
      cases hr : (resolveTag env identifier t none).1 with
      | ok v => simp [hr, List.mem_cons, Except.isOk, Except.toBool, Except.toOption]
      | error e => simp [hr, List.mem_cons, Except.isOk, Except.toBool, Except.toOption]
    · by_cases hmem : t ∈ rest
      · simp [ht, hmem, List.mem_cons]
      · simp [ht, hmem, List.mem_cons]

/-- Claim C6: processing a set of tags for one extension from the empty
version map yields, at every key `t`, exactly the outcome of `t`'s own
resolution — `some` of its version when `t` was listed and its resolution
succeeded, `none` otherwise.  Failures (of any kind) are absorbed at the
tag boundary: a failed resolution leaves the map untouched at that key and
produces an error log entry carrying the extension identifier, while every
other tag's entry is unaffected. -/
theorem claim6_tag_isolation (env : ResolveEnv) (identifier : String)
    (tag_names : List String) (t : String) :
    processAllTags env identifier tag_names t =
      (if t ∈ tag_names then ((resolveTag env identifier t none).1).toOption else none) ∧
    (∀ e, (resolveTag env identifier t none).1 = .error e →
      ∃ entry ∈ (processTag env identifier (fun _ => none) t none).2.1,
        entry.level = .error ∧ entry.identifier = identifier) := by
  constructor
  · unfold processAllTags
    rw [foldl_processTag_apply]
    by_cases hmem : t ∈ tag_names
    · cases hr : (resolveTag env identifier t none).1 with
      | ok v => simp [hmem, hr, Except.isOk, Except.toBool, Except.toOption]
      | error e => simp [hmem, hr, Except.isOk, Except.toBool, Except.toOption]
    · simp [hmem]
  · intro e he
    have hpt : (processTag env identifier (fun _ => none) t none).2.1 =
        (resolveTag env identifier t none).2.1 ++
          [{ level := .error, identifier := identifier,
             message := processTagErrorLog identifier t e }] := by
      unfold processTag
      dsimp only
      rw [he]
    refine ⟨{ level := .error, identifier := identifier,
              message := processTagErrorLog identifier t e }, ?_, rfl, rfl⟩
    rw [hpt]
    exact List.mem_append_right _ (List.mem_singleton_self _)

set_option maxRecDepth 10000 in
/-- Witness for C6: over the concrete tag list `["1.0.0", "latest"]` in the
environment `envA`, the resulting map holds exactly the successful tag
`1.0.0`; the invalid tag `latest` is absent but logged with the extension
identifier; an unlisted tag is absent. -/
theorem claim6_witness :
    (processAllTags envA "ext" ["1.0.0", "latest"] "1.0.0").isSome = true ∧
    processAllTags envA "ext" ["1.0.0", "latest"] "latest" = none ∧
    processAllTags envA "ext" ["1.0.0", "latest"] "9.9.9" = none ∧
    ∃ entry ∈ (processTag envA "ext" (fun _ => none) "latest" none).2.1,
      entry.level = .error ∧ entry.identifier = "ext" := by
  refine ⟨?_, ?_, ?_, ?_⟩
  · rw [(claim6_tag_isolation envA "ext" ["1.0.0", "latest"] "1.0.0").1]
    decide
  · rw [(claim6_tag_isolation envA "ext" ["1.0.0", "latest"] "latest").1]
    rfl
  · rw [(claim6_tag_isolation envA "ext" ["1.0.0", "latest"] "9.9.9").1]
    rfl
  · exact (claim6_tag_isolation envA "ext" ["1.0.0", "latest"] "latest").2
      (.valueError ("Invalid version naming: " ++ "latest")) rfl

/-- Claim C7: for every successfully constructed auth token, `is_expired`
observed at instant `now` holds if and only if `now - issued_at` strictly
exceeds `expires_in`; when the server supplies no `issued_at` it defaults
to the construction instant; and a token with `issued_at = now` and
`expires_in = 60` is not expired immediately and is expired 61 or more
seconds later. -/
theorem claim7_token_expiry (tk atk rt : Option String) (ei t0 d : Int)
    (iat : Option Int) (tok : AuthToken)
    (h : AuthToken.create tk atk ei iat rt t0 = .ok tok) :
    tok.issued_at = some (iat.getD t0) ∧
    tok.expires_in = ei ∧
    (∀ now, tok.is_expired now = true ↔ now - iat.getD t0 > ei) ∧
    (iat = none → tok.issued_at = some t0) ∧
    (ei = 60 ∧ iat = none →
      tok.is_expired t0 = false ∧ (61 ≤ d → tok.is_expired (t0 + d) = true)) := by
  unfold AuthToken.create at h
  split at h
  · exact absurd h (by simp)
  · simp only [Except.ok.injEq] at h
    subst h
    refine ⟨rfl, rfl, ?_, ?_, ?_⟩
    · intro now
      simp [AuthToken.is_expired]
    · intro hnone
      rw [hnone]
      simp
    · rintro ⟨he, hn⟩
      subst he
      subst hn
      constructor
      · simp only [AuthToken.is_expired, Option.getD_none, decide_eq_false_iff_not]
        omega
      · intro hd
        simp only [AuthToken.is_expired, Option.getD_none, decide_eq_true_eq]
        omega

/-- Witness for C7: a concrete token with bearer value `tok` issued at
instant 0 with the default 60-second lifetime: not expired at 0, not
expired at 60 (the bound is strict), expired at 61. -/
theorem claim7_witness :
    AuthToken.create (some "tok") none 60 none none 0 =
      .ok { token := some "tok", access_token := none, expires_in := 60,
            issued_at := some 0, refresh_token := none } ∧
    ({ token := some "tok", access_token := none, expires_in := 60,
       issued_at := some 0, refresh_token := none } : AuthToken).is_expired 0 = false ∧
    ({ token := some "tok", access_token := none, expires_in := 60,
       issued_at := some 0, refresh_token := none } : AuthToken).is_expired 61 = true ∧
    ({ token := some "tok", access_token := none, expires_in := 60,
       issued_at := some 0, refresh_token := none } : AuthToken).is_expired 60 = false := by
  have h := claim7_token_expiry (some "tok") none none 60 0 61 none
    { token := some "tok", access_token := none, expires_in := 60,
      issued_at := some 0, refresh_token := none } (by decide)
  have h5 := h.2.2.2.2 ⟨rfl, rfl⟩
  exact ⟨by decide, h5.1, h5.2 (by decide), by decide⟩

/-- With the one-character pattern `-` and empty replacement, Python
`str.replace` is exactly the removal of every dash. -/
theorem pyReplaceAux_dash (fuel : Nat) (l : List Char) (hf : l.length ≤ fuel) :
    pyReplaceAux ['-'] [] fuel l = l.filter (fun c => c ≠ '-') := by
  induction fuel generalizing l with
  | zero =>
    cases l with
    | nil => rfl
    | cons c rest => simp at hf
  | succ n ih =>
    cases l with
    | nil => rfl
    | cons c rest =>
      simp only [pyReplaceAux]
      by_cases hc : c = '-'
      · rw [if_pos ⟨by simp, by simp [hc, List.isPrefixOf]⟩]
        have hdrop : List.drop (['-'] : List Char).length (c :: rest) = rest := rfl
        rw [List.nil_append, hdrop,
          ih rest (by simpa using Nat.le_of_succ_le_succ (by simpa using hf))]
        simp [List.filter_cons, hc]
      · rw [if_neg ?_]
        · rw [ih rest (by simpa using Nat.le_of_succ_le_succ (by simpa using hf))]
          simp [List.filter_cons, hc]
        · rintro ⟨-, hpre⟩
          simp [List.isPrefixOf] at hpre
          exact hc hpre.symm

/-- String-level form of the dash-removal fact. -/
theorem pyReplace_dash (s : String) :
    pyReplace s "-" "" = ⟨s.data.filter (fun c => c ≠ '-')⟩ := by
  unfold pyReplace
  have h1 : ("-" : String).data = ['-'] := rfl
  have h2 : ("" : String).data = [] := rfl
  rw [h1, h2, pyReplaceAux_dash s.data.length s.data (Nat.le_refl _)]

/-- The source-side keep test of `validate_filter_tags` — the dash-stripped
tag is non-empty and alphanumeric — matches the specification-side
predicate: the tag has at least one non-dash character and every non-dash
character is alphanumeric. -/
theorem filter_tags_keep_eq (t : String) :
    pyIsAlnum (pyReplace t "-" "") =
      decide ((∃ c ∈ t.data, c ≠ '-') ∧ ∀ c ∈ t.data, c ≠ '-' → c.isAlphanum = true) := by
  rw [pyReplace_dash]
  apply Bool.eq_iff_iff.mpr
  unfold pyIsAlnum
  simp only [Bool.and_eq_true, Bool.not_eq_true', List.isEmpty_eq_false, List.all_eq_true,
    List.mem_filter, decide_eq_true_eq, ne_eq]
  constructor
  · rintro ⟨hne, hall⟩
    refine ⟨?_, ?_⟩
    · rcases List.exists_mem_of_ne_nil _ hne with ⟨c, hc⟩
      have := List.mem_filter.mp hc
      exact ⟨c, this.1, by simpa using this.2⟩
    · intro c hc hdash
      exact hall c ⟨hc, by simpa using hdash⟩
  · rintro ⟨⟨c, hc, hdash⟩, hall⟩
    refine ⟨?_, ?_⟩
    · intro hnil
      have : c ∈ List.filter (fun c => decide ¬c = '-') t.data :=
        List.mem_filter.mpr ⟨hc, by simpa using hdash⟩
      rw [hnil] at this
      simp at this
    · rintro c2 ⟨hc2, hd2⟩
      exact hall c2 hc2 (by simpa using hd2)

/-- Claim C8: `validate_filter_tags` returns the tags whose characters,
ignoring dashes, are alphanumeric (tags with spaces, punctuation other than
`-`, or empty after removing dashes are dropped), each lower-cased, in
their original order, truncated to at most 10 elements. -/
theorem claim8_filter_tags (tags : List String) :
    validate_filter_tags tags =
      ((tags.filter (fun t =>
          decide ((∃ c ∈ t.data, c ≠ '-') ∧ ∀ c ∈ t.data, c ≠ '-' → c.isAlphanum = true))).map
        pyLower).take 10 ∧
    (validate_filter_tags tags).length ≤ 10 := by
  constructor
  · unfold validate_filter_tags
    rw [List.filter_congr (fun t _ => filter_tags_keep_eq t)]
  · unfold validate_filter_tags
    exact List.length_take_le _ _

/-- Witness for C8: the characterization applied to a concrete list with a
valid mixed-case dashed tag, a tag with a space and punctuation, an
all-dash tag, and twelve valid tags — only the valid ones survive,
lower-cased, and the result is cut at 10. -/
theorem claim8_witness :
    validate_filter_tags
      ["Valid-Tag", "bad tag!", "---", "a1", "b2", "c3", "d4", "e5", "f6", "g7", "h8", "i9",
        "j10"] = ["valid-tag", "a1", "b2", "c3", "d4", "e5", "f6", "g7", "h8", "i9"] ∧
    (validate_filter_tags
      ["Valid-Tag", "bad tag!", "---", "a1", "b2", "c3", "d4", "e5", "f6", "g7", "h8", "i9",
        "j10"]).length ≤ 10 := by
  have h := claim8_filter_tags
    ["Valid-Tag", "bad tag!", "---", "a1", "b2", "c3", "d4", "e5", "f6", "g7", "h8", "i9", "j10"]
  refine ⟨?_, h.2⟩
  rw [h.1]
  decide

/-- Inversion for a successful `__create_version`: the resulting record's
identifier is the DNS-namespace UUID-5 of `identifier.tag_name`, and its
type is the successful parse of the `type` label (defaulting to `other`
when the label is absent). -/
theorem createVersion_ok_fields (env : ResolveEnv) (identifier tag_name : String)
    (blob : Blob) (manifest : ManifestFetch) (hub_tag : Option Tag) (v : ExtensionVersion)
    (h : (createVersion env identifier tag_name blob manifest hub_tag).1 = .ok v) :
    v.identifier = uuid5dns (identifier ++ "." ++ tag_name) ∧
    extensionTypeOfString (lget blob.config.Labels "type" ExtensionType.OTHER.value) =
      .ok v.type := by
  unfold createVersion at h
  dsimp only at h
  repeat' split at h
  all_goals
    first
    | exact Except.noConfusion h
    | (simp only [Except.ok.injEq] at h
       subst h
       refine ⟨rfl, ?_⟩
       dsimp only
       assumption)

/-- Inversion for a successful `__process_tag` resolution: it fetched a
manifest for the tag, fetched some config blob, and built the version from
that blob. -/
theorem resolveTag_ok_inv (env : ResolveEnv) (identifier tag_name : String)
    (hub : Option Tag) (v : ExtensionVersion)
    (h : (resolveTag env identifier tag_name hub).1 = .ok v) :
    ∃ manifest digest blobb, env.getManifest tag_name = .ok manifest ∧
      env.getBlob digest = .ok blobb ∧
      (createVersion env identifier tag_name blobb manifest hub).1 = .ok v := by
  unfold resolveTag at h
  dsimp only at h
  repeat' split at h
  all_goals
    first
    | exact Except.noConfusion h
    | exact ⟨_, _, _, by assumption, by assumption, h⟩

/-- Claim C9: the version identifier produced for a tag is a deterministic
function of the pair (extension identifier, tag name): it equals the
DNS-namespace UUID-5 of `identifier.tag_name` — a pure hash with no
randomness — so any two successful constructions for the same pair, even in
different environments with different blobs, manifests, or hub metadata,
produce the same identifier. -/
theorem claim9_identifier_deterministic (env env2 : ResolveEnv)
    (identifier tag_name : String) (blob blob2 : Blob)
    (manifest manifest2 : ManifestFetch) (hub hub2 : Option Tag)
    (v v2 : ExtensionVersion)
    (h : (createVersion env identifier tag_name blob manifest hub).1 = .ok v)
    (h2 : (createVersion env2 identifier tag_name blob2 manifest2 hub2).1 = .ok v2) :
    v.identifier = uuid5dns (identifier ++ "." ++ tag_name) ∧
    v.identifier = v2.identifier := by
  have a := (createVersion_ok_fields env identifier tag_name blob manifest hub v h).1
  have b := (createVersion_ok_fields env2 identifier tag_name blob2 manifest2 hub2 v2 h2).1
  exact ⟨a, a.trans b.symm⟩

set_option maxRecDepth 10000 in
/-- Witness for C9: two concrete successful constructions for the pair
(`ext`, `1.0.0`) — against different environments and different blobs —
yield the same identifier, the UUID-5 of `ext.1.0.0`. -/
theorem claim9_witness :
    ∃ v v2,
      (createVersion envA "ext" "1.0.0" blobA
        { manifest := .image imageManifestA } none).1 = .ok v ∧
      (createVersion envNoType "ext" "1.0.0" blobNoType
        { manifest := .image imageManifestA } none).1 = .ok v2 ∧
      v.identifier = uuid5dns ("ext" ++ "." ++ "1.0.0") ∧
      v.identifier = v2.identifier := by
  cases hv : (createVersion envA "ext" "1.0.0" blobA
      { manifest := .image imageManifestA } none).1 with
  | error e =>
    have hok : (createVersion envA "ext" "1.0.0" blobA
        { manifest := .image imageManifestA } none).1.isOk = true := by decide
    rw [hv] at hok
    simp [Except.isOk, Except.toBool] at hok
  | ok v =>
    cases hv2 : (createVersion envNoType "ext" "1.0.0" blobNoType
        { manifest := .image imageManifestA } none).1 with
    | error e =>
      have hok : (createVersion envNoType "ext" "1.0.0" blobNoType
          { manifest := .image imageManifestA } none).1.isOk = true := by decide
      rw [hv2] at hok
      simp [Except.isOk, Except.toBool] at hok
    | ok v2 =>
      exact ⟨v, v2, rfl, rfl,
        claim9_identifier_deterministic envA envNoType "ext" "1.0.0" blobA blobNoType
          { manifest := .image imageManifestA } { manifest := .image imageManifestA }
          none none v v2 hv hv2⟩

/-- Claim C10: when the config blob's labels carry a `type` value outside
the recognized set, version construction fails (never returns a version),
and consequently — in a registry whose blob endpoint serves that blob — the
tag is omitted from the version map; when the `type` label is absent, any
successfully built version has the default type `other`. -/
theorem claim10_type_label (env : ResolveEnv) (identifier tag_name : String)
    (blob : Blob) (manifest : ManifestFetch) (hub : Option Tag) (m : VersionMap) :
    (∀ tv, lgetOpt blob.config.Labels "type" = some tv →
      tv ∉ ["device-integration", "example", "theme", "other", "tool"] →
      (∀ v, (createVersion env identifier tag_name blob manifest hub).1 ≠ .ok v) ∧
      ((∀ d b, env.getBlob d = .ok b → b = blob) →
        (processTag env identifier m tag_name hub).1 = m)) ∧
    (lgetOpt blob.config.Labels "type" = none →
      ∀ v, (createVersion env identifier tag_name blob manifest hub).1 = .ok v →
        v.type = ExtensionType.OTHER) := by
  constructor
  · intro tv hl hbad
    have hget : lget blob.config.Labels "type" ExtensionType.OTHER.value = tv := by
      unfold lget
      unfold lgetOpt at hl
      rw [hl]
      rfl
    have hfail : ∀ (mf2 : ManifestFetch) (v : ExtensionVersion),
        (createVersion env identifier tag_name blob mf2 hub).1 ≠ .ok v := by
      intro mf2 v hok
      have hty := (createVersion_ok_fields env identifier tag_name blob mf2 hub v hok).2
      rw [hget] at hty
      simp only [List.mem_cons, List.mem_singleton, List.not_mem_nil, or_false] at hbad
      push_neg at hbad
      obtain ⟨h1, h2, h3, h4, h5⟩ := hbad
      simp [extensionTypeOfString, h1, h2, h3, h4, h5] at hty
    refine ⟨hfail manifest, ?_⟩
    intro hserve
    unfold processTag
    dsimp only
    cases hr : (resolveTag env identifier tag_name hub).1 with
    | error e => rfl
    | ok v =>
      exfalso
      obtain ⟨mf, d, b, hm, hb, hcv⟩ := resolveTag_ok_inv env identifier tag_name hub v hr
      have hbb := hserve d b hb
      subst hbb
      exact hfail mf v hcv
  · intro hl v hok
    have hty := (createVersion_ok_fields env identifier tag_name blob manifest hub v hok).2
    have hget : lget blob.config.Labels "type" ExtensionType.OTHER.value = "other" := by
      unfold lget
      unfold lgetOpt at hl
      rw [hl]
      rfl
    rw [hget] at hty
    simp [extensionTypeOfString] at hty
    exact hty.symm

set_option maxRecDepth 10000 in
/-- Witness for C10: with the concrete blob carrying `type = firmware`
(unrecognized) construction fails and processing tag `1.0.0` leaves the
version map empty; with the concrete blob lacking a `type` label the built
version has type `other`. -/
theorem claim10_witness :
    (∀ v, (createVersion envBadType "ext" "1.0.0" blobBadType
      { manifest := .image imageManifestA } none).1 ≠ .ok v) ∧
    (processTag envBadType "ext" (fun _ => none) "1.0.0" none).1 = (fun _ => none) ∧
    ∃ v, (createVersion envNoType "ext" "1.0.0" blobNoType
      { manifest := .image imageManifestA } none).1 = .ok v ∧
      v.type = ExtensionType.OTHER := by
  have h := claim10_type_label envBadType "ext" "1.0.0" blobBadType
    { manifest := .image imageManifestA } none (fun _ => none)
  have hb := h.1 "firmware" rfl (by decide)
  refine ⟨hb.1, hb.2 ?_, ?_⟩
  · intro d b hdb
    by_cases hd : d = "cfg"
    · rw [show envBadType.getBlob d = .ok blobBadType from by simp [envBadType, hd]] at hdb
      simp only [Except.ok.injEq] at hdb
      exact hdb.symm
    · rw [show envBadType.getBlob d = .error "404" from by simp [envBadType, hd]] at hdb
      exact Except.noConfusion hdb
  · have h2 := claim10_type_label envNoType "ext" "1.0.0" blobNoType
      { manifest := .image imageManifestA } none (fun _ => none)
    cases hv : (createVersion envNoType "ext" "1.0.0" blobNoType
        { manifest := .image imageManifestA } none).1 with
    | error e =>
      have hok : (createVersion envNoType "ext" "1.0.0" blobNoType
          { manifest := .image imageManifestA } none).1.isOk = true := by decide
      rw [hv] at hok
      simp [Except.isOk, Except.toBool] at hok
    | ok v =>
      exact ⟨v, rfl, h2.2 rfl v hv⟩

end Blueos
